import Mathlib

/-!
# psiphon/tlsDialer.go: dial-and-verify routine

A shallow embedding of `CustomTLSDialWithDialer`, `verifyLegacyCertificate` and
`verifyServerCerts` from `src/psiphon/tlsDialer.go`.

Modelling conventions.

* Go `string` and `[]byte` values are byte sequences: `List Nat`, one entry per byte.
* `time.Duration` is a signed 64-bit nanosecond count, embedded in `Int`. `time.Time` is
  an instant, embedded in `Int` as nanoseconds after the zero instant, so that
  `t.IsZero()` is `t = 0`.
* A `*tls.Config` is an index into a store of `tls.Config` objects; `new` and `&T{}`
  append a fresh object to the store.
* Everything outside the file (the network, the proxy, the TLS handshake, the x509
  verifier, the clock, the order in which the two channel sends arrive) is an
  explicit input gathered in `Env`.
* A Go run-time panic is an `Except.error`.
-/

namespace Psiphon

/-! ## Basic Go values -/

/-- One byte. -/
abbrev Byte := Nat

/-- A Go `[]byte`. -/
abbrev Bytes := List Byte

/-- A Go `string`: an immutable byte sequence. -/
abbrev GoString := List Byte

/-- The bytes of an ASCII string literal. -/
def ascii (s : String) : Bytes := s.data.map Char.toNat

/-- A `time.Duration`, in nanoseconds. -/
abbrev Duration := Int

/-- A `time.Time`, in nanoseconds after the zero instant. -/
abbrev Time := Int

/-- Smallest `time.Duration`. -/
def minDuration : Duration := -(2 ^ 63)

/-- Largest `time.Duration`. -/
def maxDuration : Duration := 2 ^ 63 - 1

/-- `t.IsZero()`. -/
def Time.IsZero (t : Time) : Bool := decide (t = 0)

/-- `t.Sub(u)`: the duration `t - u`, saturating at the extreme durations. -/
def Time.Sub (t u : Time) : Duration :=
  if t - u < minDuration then minDuration
  else if maxDuration < t - u then maxDuration
  else t - u

/-- Run-time panics the embedded code can raise. -/
inductive Panic where
  | indexOutOfRange (index : Int) (length : Nat)
  | sliceOutOfRange (bound : Int) (length : Nat)
  deriving DecidableEq, Repr

deriving instance DecidableEq for Except

/-- Go `error` values that flow through the dial routine. -/
inductive Error where
  /-- `timeoutError{}`. -/
  | timeoutError
  /-- `errors.New(msg)`. -/
  | errorsNew (msg : String)
  /-- `fmt.Errorf("unexpected HTTP proxy response: %s", string(readBuffer))`. -/
  | proxyResponse (readBuffer : Bytes)
  /-- `io.EOF`. -/
  | eof
  /-- `io.ErrUnexpectedEOF`. -/
  | unexpectedEOF
  /-- An error produced by net, crypto/tls or crypto/x509. -/
  | external (code : Nat)
  deriving DecidableEq, Repr

/-- `timeoutError.Error()`. -/
def timeoutErrorMessage : String := "tls: DialWithDialer timed out"

/-- `timeoutError.Timeout()`. -/
def timeoutErrorTimeout : Bool := true

/-- `timeoutError.Temporary()`. -/
def timeoutErrorTemporary : Bool := true

/-! ## Certificates and TLS settings -/

/-- An `x509.Certificate`: the raw encoding and the parsed fields used by standard
verification. -/
structure Certificate where
  Raw : Bytes
  DNSNames : List GoString := []
  NotBefore : Time := 0
  NotAfter : Time := 0
  IsCA : Bool := false
  deriving DecidableEq, Repr

/-- An `x509.CertPool`. -/
abbrev CertPool := List Certificate

/-- `pool.AddCert(cert)`. -/
def CertPool.AddCert (pool : CertPool) (cert : Certificate) : CertPool := pool ++ [cert]

/-- `x509.VerifyOptions`. `Roots = none` is the nil pool. -/
structure VerifyOptions where
  Roots : Option CertPool
  CurrentTime : Time
  DNSName : GoString
  Intermediates : CertPool
  deriving DecidableEq, Repr

/-- A `tls.Config`. `passThrough` stands for the handshake parameters the dial routine
never reads. The default value is the zero value `tls.Config{}`. -/
structure TLSConfig where
  ServerName : GoString := []
  InsecureSkipVerify : Bool := false
  RootCAs : Option CertPool := none
  passThrough : Nat := 0
  deriving DecidableEq, Repr

/-- A `*tls.Config`: an index into the store. -/
abbrev Ptr := Nat

/-- The store of `tls.Config` objects. -/
abbrev Heap := List TLSConfig

/-- Allocate a fresh object holding `v`; returns its address and the new store. -/
def Heap.alloc (h : Heap) (v : TLSConfig) : Ptr × Heap := (h.length, h ++ [v])

/-- Value of `*p`. Go pointers always refer to a live object; an index outside the store
reads as the zero value, and the statements that depend on it assume `ValidConfig`. -/
def Heap.read (h : Heap) (p : Ptr) : TLSConfig := h.getD p {}

/-- Assignment `*p = v`. -/
def Heap.write (h : Heap) (p : Ptr) (v : TLSConfig) : Heap := h.set p v

/-- `CustomTLSConfig`. A nil `verifyLegacyCertificate` or `tlsConfig` is `none`. -/
structure CustomTLSConfig where
  httpProxyAddress : GoString := []
  sendServerName : Bool := false
  verifyLegacyCertificate : Option Certificate := none
  tlsConfig : Option Ptr := none
  deriving DecidableEq, Repr

/-- The fields of `net.Dialer` the routine reads. -/
structure Dialer where
  Timeout : Duration := 0
  Deadline : Time := 0
  deriving DecidableEq, Repr

/-! ## Certificate verifiers -/

/-- The index expression `certs[i]`, which panics unless `i < len(certs)`. -/
def index (certs : List Certificate) (i : Nat) : Except Panic Certificate :=
  match certs.get? i with
  | some c => Except.ok c
  | none => Except.error (Panic.indexOutOfRange i certs.length)

/-- `verifyLegacyCertificate(conn, expectedCertificate)`, with
`certs = conn.ConnectionState().PeerCertificates`. -/
def verifyLegacyCertificate (certs : List Certificate) (expectedCertificate : Certificate) :
    Except Panic (Option Error) :=
  if certs.length < 1 then
    Except.ok (some (Error.errorsNew "no certificate to verify"))
  else
    match index certs 0 with
    | Except.error p => Except.error p
    | Except.ok c0 =>
      if ¬ (c0.Raw = expectedCertificate.Raw) then
        Except.ok (some (Error.errorsNew "unexpected certificate"))
      else
        Except.ok none

/-- The loop of `verifyServerCerts`: every certificate except the one at index 0 is added
to the pool. `i` is the index of the head of `certs`. -/
def addIntermediates : Nat → List Certificate → CertPool → CertPool
  | _, [], pool => pool
  | i, cert :: rest, pool =>
    if i = 0 then addIntermediates (i + 1) rest pool
    else addIntermediates (i + 1) rest (pool.AddCert cert)

/-- `verifyServerCerts(conn, serverName, config)`, with
`certs = conn.ConnectionState().PeerCertificates`, `roots = config.RootCAs`, `now` the
value of `time.Now()` and `verify` the method `(*x509.Certificate).Verify`. -/
def verifyServerCerts (verify : Certificate → VerifyOptions → Option Error) (now : Time)
    (certs : List Certificate) (serverName : GoString) (roots : Option CertPool) :
    Except Panic (Option Error) :=
  let opts : VerifyOptions :=
    { Roots := roots, CurrentTime := now, DNSName := serverName, Intermediates := [] }
  let opts := { opts with Intermediates := addIntermediates 0 certs opts.Intermediates }
  match index certs 0 with
  | Except.error p => Except.error p
  | Except.ok leaf => Except.ok (verify leaf opts)

/-! ## Timeout and server name -/

/-- Lines 128-135: the timeout that bounds the whole dial. -/
def effectiveTimeout (dialer : Dialer) (now : Time) : Duration :=
  let timeout := dialer.Timeout
  if ¬ dialer.Deadline.IsZero then
    let deadlineTimeout := dialer.Deadline.Sub now
    if timeout = 0 ∨ deadlineTimeout < timeout then deadlineTimeout else timeout
  else timeout

/-- The backwards scan of `strings.LastIndex(s, sep)` for a one-byte `sep`: the largest
index below `n` holding `c`, or `-1`. -/
def lastIndexFrom (s : GoString) (c : Byte) : Nat → Int
  | 0 => -1
  | i + 1 => if s.get? i = some c then (i : Int) else lastIndexFrom s c i

/-- `strings.LastIndex(s, ":")`-style search for a single byte. -/
def lastIndexByte (s : GoString) (c : Byte) : Int := lastIndexFrom s c s.length

/-- The slice expression `s[:hi]`, which panics unless `0 ≤ hi ≤ len(s)`. -/
def sliceTo (s : GoString) (hi : Int) : Except Panic GoString :=
  if 0 ≤ hi ∧ hi ≤ (s.length : Int) then Except.ok (s.take hi.toNat)
  else Except.error (Panic.sliceOutOfRange hi s.length)

/-- The byte `:`. -/
def colon : Byte := 58

/-- Lines 156-160: the hostname portion of `addr`. -/
def hostnameOf (addr : GoString) : Except Panic GoString :=
  let colonPos := lastIndexByte addr colon
  let colonPos := if colonPos = -1 then (addr.length : Int) else colonPos
  sliceTo addr colonPos

/-- Lines 167-173: the server name derived from the TLS settings and the hostname. -/
def deriveServerName (tlsConfig : TLSConfig) (hostname : GoString) : GoString :=
  let serverName := tlsConfig.ServerName
  if serverName = [] then hostname else serverName

/-! ## The environment and the trace -/

/-- The peer of a dial: everything the routine obtains from outside the file. -/
structure Env where
  /-- Value of `time.Now()` at line 131. -/
  now : Time
  /-- Error of `dialer.Dial(network, address)`. -/
  dial : GoString → GoString → Option Error
  /-- Error of `rawConn.Write(request)`. -/
  write : Bytes → Option Error
  /-- Bytes that arrive on `rawConn` before the stream ends or fails. -/
  reply : Bytes
  /-- Error that `rawConn.Read` reports once `reply` is used up. -/
  replyEnd : Error
  /-- Error of `conn.Handshake()` for a client created with the given configuration. -/
  handshake : TLSConfig → Option Error
  /-- Value of `conn.ConnectionState().PeerCertificates` after the handshake. -/
  peerCertificates : List Certificate
  /-- Whether the send of the timer is received before the send of the background task. -/
  timerFirst : Bool
  /-- How many of its actions the background task has performed when the dial routine
  receives the send of the timer. -/
  taskProgress : Nat
  /-- The method `(*x509.Certificate).Verify`. -/
  verify : Certificate → VerifyOptions → Option Error
  /-- Value of `time.Now()` at line 254. -/
  verifyTime : Time

/-- Actions of the dial routine, in program order. `established` records the value of
`err` after lines 214-221; the verifier events record what the verifier returned. -/
inductive Event where
  | makeChan (capacity : Nat)
  | afterFunc (timeout : Duration)
  | dial (network address : GoString)
  | spawn
  | write (request : Bytes)
  | readFull (readBuffer : Bytes)
  | handshake (tlsConfigCopy : TLSConfig)
  | recv
  | established (err : Option Error)
  | verifyLegacy (result : Except Panic (Option Error))
  | verifyChain (result : Except Panic (Option Error))
  | close
  deriving DecidableEq

/-- The event starts the TLS handshake. -/
def Event.isHandshake : Event → Bool
  | Event.handshake _ => true
  | _ => false

/-- The event is a run of the legacy exact-match verifier. -/
def Event.isVerifyLegacy : Event → Bool
  | Event.verifyLegacy _ => true
  | _ => false

/-- The event is a run of manual chain verification. -/
def Event.isVerifyChain : Event → Bool
  | Event.verifyChain _ => true
  | _ => false

/-- The event belongs to the timed path: channel, timer, background task or receive. -/
def Event.isTimed : Event → Bool
  | Event.makeChan _ => true
  | Event.afterFunc _ => true
  | Event.spawn => true
  | Event.recv => true
  | _ => false

/-- A `*tls.Conn` made by `tls.Client(rawConn, tlsConfigCopy)`. -/
structure Conn where
  config : Ptr
  deriving DecidableEq, Repr

/-! ## The dial routine -/

/-- `io.ReadFull(r, buf)` with `len(buf) = n` on a stream that delivers `data` and then
reports `endErr`: the buffer contents and the error. -/
def readFull (data : Bytes) (endErr : Error) (n : Nat) : Bytes × Option Error :=
  if n ≤ data.length then (data.take n, none)
  else
    (data ++ List.replicate (n - data.length) 0,
      some (if endErr = Error.eof ∧ 0 < data.length then Error.unexpectedEOF else endErr))

/-- The response the proxy must give. -/
def expectedResponse : Bytes := ascii "HTTP/1.1 200 OK\r\n\r\n"

/-- The CONNECT request of line 194. -/
def connectRequest (addr hostname : GoString) : Bytes :=
  ascii "CONNECT " ++ addr ++ ascii " HTTP/1.1\r\nHost: " ++ hostname ++
    ascii "\r\nConnection: Keep-Alive\r\n\r\n"

/-- Lines 191-212: the closure `establishConnection`. `tlsConfigCopy` is the value of the
configuration `conn` was created with. Returns the error and the actions performed. -/
def establishConnection (env : Env) (config : CustomTLSConfig) (addr hostname : GoString)
    (tlsConfigCopy : TLSConfig) : Option Error × List Event :=
  if config.httpProxyAddress ≠ [] then
    let request := connectRequest addr hostname
    match env.write request with
    | some err => (some err, [Event.write request])
    | none =>
      let r := readFull env.reply env.replyEnd expectedResponse.length
      let readBuffer := r.1
      match r.2 with
      | some err => (some err, [Event.write request, Event.readFull readBuffer])
      | none =>
        if ¬ (readBuffer = expectedResponse) then
          (some (Error.proxyResponse readBuffer),
            [Event.write request, Event.readFull readBuffer])
        else
          (env.handshake tlsConfigCopy,
            [Event.write request, Event.readFull readBuffer, Event.handshake tlsConfigCopy])
  else
    (env.handshake tlsConfigCopy, [Event.handshake tlsConfigCopy])

/-- Lines 137-144: the channel and the timer. -/
def timerSetup (timeout : Duration) : List Event :=
  if timeout ≠ 0 then [Event.makeChan 2, Event.afterFunc timeout] else []

/-- Lines 214-221: run the establishment step directly, or as a background task raced
against the timer. When the timer is received first, the received value is the timeout
error and the task has by then performed the first `env.taskProgress` of its actions; it
goes on with the rest after the receive. -/
def awaitEstablishment (env : Env) (timeout : Duration)
    (establishment : Option Error × List Event) : Option Error × List Event :=
  if timeout = 0 then establishment
  else if env.timerFirst then
    (some Error.timeoutError,
      [Event.spawn] ++ establishment.2.take env.taskProgress ++ [Event.recv])
  else (establishment.1, [Event.spawn] ++ establishment.2 ++ [Event.recv])

/-- The configuration pointers and the store after lines 162-187. -/
structure Prepared where
  tlsConfig : Ptr
  serverName : GoString
  tlsConfigCopy : Ptr
  heap : Heap

/-- Lines 162-187: default the settings, derive the server name, copy the settings and
adjust the copy. -/
def prepareConfig (heap : Heap) (config : CustomTLSConfig) (hostname : GoString) : Prepared :=
  let a := match config.tlsConfig with
    | none => heap.alloc {}
    | some p => (p, heap)
  let tlsConfig := a.1
  let heap := a.2
  let serverName := deriveServerName (heap.read tlsConfig) hostname
  let b := heap.alloc {}
  let tlsConfigCopy := b.1
  let heap := b.2
  let heap := heap.write tlsConfigCopy (heap.read tlsConfig)
  let heap :=
    if config.sendServerName then
      heap.write tlsConfigCopy { heap.read tlsConfigCopy with ServerName := serverName }
    else
      heap.write tlsConfigCopy { heap.read tlsConfigCopy with InsecureSkipVerify := true }
  { tlsConfig := tlsConfig, serverName := serverName, tlsConfigCopy := tlsConfigCopy,
    heap := heap }

/-- Lines 223-228: the certificate verifier chosen by the configuration. -/
def postVerify (env : Env) (config : CustomTLSConfig) (err : Option Error)
    (prep : Prepared) : Except Panic (Option Error) × List Event :=
  match err, config.verifyLegacyCertificate with
  | none, some expectedCertificate =>
    let r := verifyLegacyCertificate env.peerCertificates expectedCertificate
    (r, [Event.verifyLegacy r])
  | _, _ =>
    if err = none ∧ ¬ config.sendServerName ∧
        ¬ (prep.heap.read prep.tlsConfig).InsecureSkipVerify then
      let r := verifyServerCerts env.verify env.verifyTime env.peerCertificates
        prep.serverName (prep.heap.read prep.tlsConfigCopy).RootCAs
      (r, [Event.verifyChain r])
    else
      (Except.ok err, [])

/-- What a call of the dial routine leaves behind: the returned pair or the panic, the
actions performed and the store. -/
structure DialOutcome where
  result : Except Panic (Option Conn × Option Error)
  events : List Event
  heap : Heap

/-- Lines 146-149: the address the raw transport is opened to. -/
def dialAddress (config : CustomTLSConfig) (addr : GoString) : GoString :=
  if config.httpProxyAddress ≠ [] then config.httpProxyAddress else addr

/-- Lines 230-235: close the transport and return the error, or return the connection.
`verified` is the value of `err` after the verifier, or the panic it raised. -/
def finishDial (conn : Conn) (verified : Except Panic (Option Error)) (events : List Event)
    (heap : Heap) : DialOutcome :=
  match verified with
  | Except.error p => { result := Except.error p, events := events, heap := heap }
  | Except.ok (some err) =>
    { result := Except.ok (none, some err), events := events ++ [Event.close], heap := heap }
  | Except.ok none =>
    { result := Except.ok (some conn, none), events := events, heap := heap }

/-- `CustomTLSDialWithDialer(dialer, network, addr, config)`. -/
def CustomTLSDialWithDialer (env : Env) (heap : Heap) (dialer : Dialer)
    (network addr : GoString) (config : CustomTLSConfig) : DialOutcome :=
  let timeout := effectiveTimeout dialer env.now
  let events := timerSetup timeout
  let dialAddr := dialAddress config addr
  let events := events ++ [Event.dial network dialAddr]
  match env.dial network dialAddr with
  | some err => { result := Except.ok (none, some err), events := events, heap := heap }
  | none =>
    match hostnameOf addr with
    | Except.error p => { result := Except.error p, events := events, heap := heap }
    | Except.ok hostname =>
      let prep := prepareConfig heap config hostname
      let conn : Conn := { config := prep.tlsConfigCopy }
      let e := awaitEstablishment env timeout
        (establishConnection env config addr hostname (prep.heap.read prep.tlsConfigCopy))
      let events := events ++ e.2 ++ [Event.established e.1]
      let v := postVerify env config e.1 prep
      finishDial conn v.1 (events ++ v.2) prep.heap

/-- `CustomTLSDial(network, addr, config)`: the dial with a zero `net.Dialer`. -/
def CustomTLSDial (env : Env) (heap : Heap) (network addr : GoString)
    (config : CustomTLSConfig) : DialOutcome :=
  CustomTLSDialWithDialer env heap {} network addr config

/-! ## Vocabulary of the statements -/

/-- The store value the routine treats as the caller's TLS settings: the object
`config.tlsConfig` points to, or the zero value when the pointer is nil. -/
def callerSettings (heap : Heap) (config : CustomTLSConfig) : TLSConfig :=
  match config.tlsConfig with
  | none => {}
  | some p => heap.read p

/-- The configuration value handed to `tls.Client`, and so to the handshake. -/
def handshakeConfig (heap : Heap) (config : CustomTLSConfig) (hostname : GoString) :
    TLSConfig :=
  (prepareConfig heap config hostname).heap.read (prepareConfig heap config hostname).tlsConfigCopy

/-- Every pointer of the configuration refers to an object of the store. -/
def ValidConfig (heap : Heap) (config : CustomTLSConfig) : Prop :=
  ∀ p, config.tlsConfig = some p → p < heap.length

/-- The certificate verifiers a dial can apply after the handshake. -/
inductive Verifier where
  | legacy (pinned : Certificate)
  | chain
  | skipped
  deriving DecidableEq, Repr

/-- The verifier the configuration selects: the legacy exact-match verifier if a pinned
legacy certificate is configured; otherwise manual chain verification if `sendServerName`
is false and the caller's TLS settings do not have skip-verify set; otherwise none. -/
def selectedVerifier (config : CustomTLSConfig) (caller : TLSConfig) : Verifier :=
  match config.verifyLegacyCertificate with
  | some pinned => Verifier.legacy pinned
  | none =>
    if config.sendServerName = false ∧ caller.InsecureSkipVerify = false then Verifier.chain
    else Verifier.skipped

/-- What the selected verifier returns for the peer certificates of `env`: the legacy
verifier compares with the pinned certificate, chain verification checks the leaf for the
derived server name against the caller's trust roots. -/
def runVerifier (env : Env) (v : Verifier) (serverName : GoString)
    (roots : Option CertPool) : Except Panic (Option Error) :=
  match v with
  | Verifier.legacy pinned => verifyLegacyCertificate env.peerCertificates pinned
  | Verifier.chain =>
    verifyServerCerts env.verify env.verifyTime env.peerCertificates serverName roots
  | Verifier.skipped => Except.ok none

/-- The trace entry of a verifier run. -/
def verifierEvents (v : Verifier) (r : Except Panic (Option Error)) : List Event :=
  match v with
  | Verifier.legacy _ => [Event.verifyLegacy r]
  | Verifier.chain => [Event.verifyChain r]
  | Verifier.skipped => []

/-- The event is the establishment record, a verifier run or the close of the transport. -/
def Event.isPost : Event → Bool
  | Event.established _ => true
  | Event.verifyLegacy _ => true
  | Event.verifyChain _ => true
  | Event.close => true
  | _ => false

/-- The value of `err` after lines 214-221 and the actions of those lines, for a dial
whose transport opened and whose hostname is `hostname`. -/
def establishment (env : Env) (heap : Heap) (dialer : Dialer) (addr : GoString)
    (config : CustomTLSConfig) (hostname : GoString) : Option Error × List Event :=
  awaitEstablishment env (effectiveTimeout dialer env.now)
    (establishConnection env config addr hostname (handshakeConfig heap config hostname))

/-- The actions of a dial up to and including the opening of the transport. -/
def openingEvents (env : Env) (dialer : Dialer) (network addr : GoString)
    (config : CustomTLSConfig) : List Event :=
  timerSetup (effectiveTimeout dialer env.now) ++ [Event.dial network (dialAddress config addr)]

/-- The verifier runs of a trace, in order. -/
def verifierRuns (events : List Event) : List Event :=
  events.filter (fun e => e.isVerifyLegacy || e.isVerifyChain)

/-! ## Test values -/

/-- An environment in which every external step succeeds and the server presents
`certs`. -/
def okEnv (certs : List Certificate) : Env :=
  { now := 1000, dial := fun _ _ => none, write := fun _ => none,
    reply := expectedResponse, replyEnd := Error.eof, handshake := fun _ => none,
    peerCertificates := certs, timerFirst := false, taskProgress := 0,
    verify := fun _ _ => none,
    verifyTime := 2000 }

/-- A server certificate. -/
def leafCert : Certificate := { Raw := [48, 130, 1], DNSNames := [ascii "example.com"] }

/-- A different certificate. -/
def otherCert : Certificate := { Raw := [48, 130, 2] }

/-- The network name `tcp`. -/
def tcp : GoString := ascii "tcp"

/-- The target address `example.com:443`. -/
def target : GoString := ascii "example.com:443"

/-- An environment whose x509 verifier rejects every chain. -/
def rejectingEnv : Env :=
  { okEnv [leafCert] with verify := fun _ _ => some (Error.external 7) }

/-- An environment whose proxy answers the CONNECT request with a 407 status line. -/
def deniedEnv : Env :=
  { okEnv [leafCert] with reply := ascii "HTTP/1.1 407 Proxy Authentication Required\r\n\r\n" }

/-- A store holding zero-valued caller settings at address 0. -/
def plainHeap : Heap := [{}]

/-- A store holding caller settings with skip-verify set at address 0. -/
def skipVerifyHeap : Heap := [{ InsecureSkipVerify := true }]

/-- A store holding caller settings with a preset server name at address 0. -/
def namedHeap : Heap := [{ ServerName := ascii "front.example" }]

/-- No SNI, no legacy certificate, caller settings at address 0. -/
def chainConfig : CustomTLSConfig := { sendServerName := false, tlsConfig := some 0 }

/-- Pins `leafCert`. -/
def legacyConfig : CustomTLSConfig :=
  { verifyLegacyCertificate := some leafCert, tlsConfig := some 0 }

/-- Pins `otherCert`. -/
def mismatchConfig : CustomTLSConfig :=
  { verifyLegacyCertificate := some otherCert, tlsConfig := some 0 }

/-- Dials through the proxy `proxy:8080`. -/
def proxyConfig : CustomTLSConfig :=
  { httpProxyAddress := ascii "proxy:8080", tlsConfig := some 0 }

/-! ## Verifier lemmas -/

theorem index_cons (c : Certificate) (rest : List Certificate) :
    index (c :: rest) 0 = Except.ok c := rfl

theorem verifyLegacyCertificate_nil (pinned : Certificate) :
    verifyLegacyCertificate [] pinned =
      Except.ok (some (Error.errorsNew "no certificate to verify")) := rfl

theorem verifyLegacyCertificate_cons (c : Certificate) (rest : List Certificate)
    (pinned : Certificate) :
    verifyLegacyCertificate (c :: rest) pinned =
      if c.Raw = pinned.Raw then Except.ok none
      else Except.ok (some (Error.errorsNew "unexpected certificate")) := by
  simp only [verifyLegacyCertificate, List.length_cons, index_cons]
  have h : ¬ (rest.length + 1 < 1) := by omega
  rw [if_neg h]
  by_cases hr : c.Raw = pinned.Raw <;> simp [hr]

/-- C1: `verifyLegacyCertificate` returns no error exactly when the list is non-empty and
its first certificate has the pinned raw bytes, `no certificate to verify` exactly for the
empty list, `unexpected certificate` exactly for a non-empty list whose first raw bytes
differ; it never panics, and the result depends only on the raw bytes of the first
certificate and of the pinned certificate. -/
theorem verifyLegacyCertificate_spec (certs : List Certificate) (pinned : Certificate) :
    (verifyLegacyCertificate certs pinned = Except.ok none ↔
      ∃ c rest, certs = c :: rest ∧ c.Raw = pinned.Raw) ∧
    (verifyLegacyCertificate certs pinned =
        Except.ok (some (Error.errorsNew "no certificate to verify")) ↔ certs = []) ∧
    (verifyLegacyCertificate certs pinned =
        Except.ok (some (Error.errorsNew "unexpected certificate")) ↔
      ∃ c rest, certs = c :: rest ∧ c.Raw ≠ pinned.Raw) ∧
    (∀ (certs2 : List Certificate) (pinned2 : Certificate),
      certs.head?.map Certificate.Raw = certs2.head?.map Certificate.Raw →
      pinned.Raw = pinned2.Raw →
      verifyLegacyCertificate certs pinned = verifyLegacyCertificate certs2 pinned2) := by
  refine ⟨?_, ?_, ?_, ?_⟩
  · cases certs with
    | nil => simp [verifyLegacyCertificate_nil]
    | cons c rest =>
      rw [verifyLegacyCertificate_cons]
      by_cases hr : c.Raw = pinned.Raw <;> simp [hr]
  · cases certs with
    | nil => simp [verifyLegacyCertificate_nil]
    | cons c rest =>
      rw [verifyLegacyCertificate_cons]
      by_cases hr : c.Raw = pinned.Raw <;> simp [hr]
  · cases certs with
    | nil => simp [verifyLegacyCertificate_nil]
    | cons c rest =>
      rw [verifyLegacyCertificate_cons]
      by_cases hr : c.Raw = pinned.Raw <;> simp [hr]
  · intro certs2 pinned2 hhead hpin
    cases certs with
    | nil =>
      cases certs2 with
      | nil => rfl
      | cons c2 rest2 => simp at hhead
    | cons c rest =>
      cases certs2 with
      | nil => simp at hhead
      | cons c2 rest2 =>
        simp only [List.head?_cons, Option.map_some', Option.some.injEq] at hhead
        rw [verifyLegacyCertificate_cons, verifyLegacyCertificate_cons, hhead, hpin]

/-- C1 at concrete inputs: two lists that agree only on the raw bytes of the first
certificate give the same result for pinned certificates with equal raw bytes. -/
theorem verifyLegacyCertificate_spec_witness :
    verifyLegacyCertificate [{ Raw := [1, 2] }, { Raw := [9] }] { Raw := [1, 2] } =
      verifyLegacyCertificate [{ Raw := [1, 2], DNSNames := [[104]], NotAfter := 5 }]
        { Raw := [1, 2], IsCA := true } :=
  (verifyLegacyCertificate_spec [{ Raw := [1, 2] }, { Raw := [9] }] { Raw := [1, 2] }).2.2.2
    [{ Raw := [1, 2], DNSNames := [[104]], NotAfter := 5 }] { Raw := [1, 2], IsCA := true }
    (by decide) (by decide)

/-! ## Hostname lemmas -/

theorem lastIndexFrom_absent (s : GoString) (c : Byte) (n : Nat)
    (h : ∀ j, j < n → s.get? j ≠ some c) : lastIndexFrom s c n = -1 := by
  induction n with
  | zero => rfl
  | succ i ih =>
    have hi : s.get? i ≠ some c := h i (Nat.lt_succ_self i)
    simp only [lastIndexFrom, if_neg hi]
    exact ih (fun j hj => h j (Nat.lt_succ_of_lt hj))

theorem lastIndexFrom_present (s : GoString) (c : Byte) (n i : Nat) (hin : i < n)
    (hi : s.get? i = some c) (hlast : ∀ j, i < j → j < n → s.get? j ≠ some c) :
    lastIndexFrom s c n = (i : Int) := by
  induction n with
  | zero => omega
  | succ m ih =>
    by_cases hm : i = m
    · subst hm
      simp only [lastIndexFrom, if_pos hi]
    · have hlt : i < m := by omega
      have hne : s.get? m ≠ some c := hlast m hlt (Nat.lt_succ_self m)
      simp only [lastIndexFrom, if_neg hne]
      exact ih hlt (fun j h1 h2 => hlast j h1 (Nat.lt_succ_of_lt h2))

theorem hostnameOf_no_colon (addr : GoString) (h : colon ∉ addr) :
    hostnameOf addr = Except.ok addr := by
  have h1 : lastIndexByte addr colon = -1 := by
    apply lastIndexFrom_absent
    intro j _ hj
    exact h (List.get?_mem hj)
  simp [hostnameOf, h1, sliceTo]

theorem hostnameOf_split (hostname rest : GoString) (h : colon ∉ rest) :
    hostnameOf (hostname ++ colon :: rest) = Except.ok hostname := by
  have h1 : lastIndexByte (hostname ++ colon :: rest) colon = (hostname.length : Int) := by
    apply lastIndexFrom_present
    · simp
    · rw [List.get?_eq_getElem?, List.getElem?_append_right (Nat.le_refl _)]
      simp
    · intro j h1 h2 hj
      have hge : hostname.length ≤ j := Nat.le_of_lt h1
      rw [List.get?_eq_getElem?, List.getElem?_append_right hge] at hj
      obtain ⟨k, hk⟩ : ∃ k, j - hostname.length = k + 1 := ⟨j - hostname.length - 1, by omega⟩
      rw [hk, List.getElem?_cons_succ] at hj
      exact h (List.getElem?_mem hj)
  have h2 : (hostname.length : Int) ≠ -1 := by omega
  have h3 : (0 : Int) ≤ (rest.length : Int) + 1 := by omega
  simp [hostnameOf, h1, h2, sliceTo, h3]

theorem exists_last_split (c : Byte) (s : GoString) (h : c ∈ s) :
    ∃ front rest, s = front ++ c :: rest ∧ c ∉ rest := by
  induction s with
  | nil => simp at h
  | cons b bs ih =>
    by_cases hbs : c ∈ bs
    · obtain ⟨front, rest, hs, hr⟩ := ih hbs
      exact ⟨b :: front, rest, by simp [hs], hr⟩
    · have hb : c = b := by
        rcases List.mem_cons.mp h with h1 | h1
        · exact h1
        · exact absurd h1 hbs
      exact ⟨[], bs, by simp [hb], hbs⟩

theorem hostnameOf_total (addr : GoString) :
    ∃ hostname, hostnameOf addr = Except.ok hostname ∧
      (colon ∉ addr → hostname = addr) ∧
      (colon ∈ addr → ∃ rest, addr = hostname ++ colon :: rest ∧ colon ∉ rest) := by
  by_cases h : colon ∈ addr
  · obtain ⟨front, rest, hs, hr⟩ := exists_last_split colon addr h
    refine ⟨front, ?_, fun hn => absurd h hn, fun _ => ⟨rest, hs, hr⟩⟩
    rw [hs]
    exact hostnameOf_split front rest hr
  · exact ⟨addr, hostnameOf_no_colon addr h, fun _ => rfl, fun hc => absurd hc h⟩

theorem read_alloc_new (heap : Heap) (v : TLSConfig) :
    (heap.alloc v).2.read (heap.alloc v).1 = v := by
  simp [Heap.alloc, Heap.read, List.getD_eq_getElem?_getD]

theorem prepareConfig_serverName (heap : Heap) (config : CustomTLSConfig)
    (hostname : GoString) :
    (prepareConfig heap config hostname).serverName =
      deriveServerName (callerSettings heap config) hostname := by
  unfold prepareConfig callerSettings
  cases h : config.tlsConfig with
  | none => simp only [read_alloc_new]
  | some p => rfl

/-- C8: the hostname slice never panics; the hostname is `addr` itself when `addr` has no
colon and otherwise the part strictly before the last colon; the derived server name is the
settings' `ServerName` when that is non-empty and the hostname otherwise, and it is the
name the dial routine works with. -/
theorem serverName_derivation (addr : GoString) (heap : Heap) (config : CustomTLSConfig) :
    ∃ hostname, hostnameOf addr = Except.ok hostname ∧
      (colon ∉ addr → hostname = addr) ∧
      (colon ∈ addr → ∃ rest, addr = hostname ++ colon :: rest ∧ colon ∉ rest) ∧
      ((callerSettings heap config).ServerName ≠ [] →
        (prepareConfig heap config hostname).serverName =
          (callerSettings heap config).ServerName) ∧
      ((callerSettings heap config).ServerName = [] →
        (prepareConfig heap config hostname).serverName = hostname) := by
  obtain ⟨hostname, h1, h2, h3⟩ := hostnameOf_total addr
  refine ⟨hostname, h1, h2, h3, ?_, ?_⟩
  · intro hne
    rw [prepareConfig_serverName]
    simp [deriveServerName, hne]
  · intro he
    rw [prepareConfig_serverName]
    simp [deriveServerName, he]

/-! ## Store lemmas -/

theorem set_length_append (h : Heap) (v w : TLSConfig) :
    (h ++ [v]).set h.length w = h ++ [w] := by
  induction h with
  | nil => rfl
  | cons a t ih => simp [ih]

theorem getD_length_append (h : Heap) (v d : TLSConfig) :
    (h ++ [v]).getD h.length d = v := by
  simp [List.getD_eq_getElem?_getD]

theorem getD_append_valid (h s : Heap) (p : Nat) (d : TLSConfig) (hp : p < h.length) :
    (h ++ s).getD p d = h.getD p d := by
  simp [List.getD_eq_getElem?_getD, List.getElem?_append_left hp]

theorem getD_append_single (h : Heap) (p : Nat) :
    (h ++ [({} : TLSConfig)]).getD p {} = h.getD p {} := by
  by_cases hp : p < h.length
  · exact getD_append_valid h _ p _ hp
  · have hge : h.length ≤ p := Nat.le_of_not_lt hp
    rw [List.getD_eq_getElem?_getD, List.getD_eq_getElem?_getD,
      List.getElem?_append_right hge, List.getElem?_eq_none hge]
    cases hk : p - h.length with
    | zero => rfl
    | succ k => simp

theorem prepareConfig_heap (heap : Heap) (config : CustomTLSConfig) (hostname : GoString) :
    ∃ suffix, (prepareConfig heap config hostname).heap = heap ++ suffix := by
  unfold prepareConfig
  cases config.tlsConfig with
  | none =>
    simp only [Heap.alloc, Heap.write]
    have hl : (heap ++ [({} : TLSConfig)]).length = heap.length + 1 := by simp
    split
    · rw [set_length_append, set_length_append]
      exact ⟨_, List.append_assoc _ _ _⟩
    · rw [set_length_append, set_length_append]
      exact ⟨_, List.append_assoc _ _ _⟩
  | some p =>
    simp only [Heap.alloc, Heap.write]
    split
    · rw [set_length_append, set_length_append]
      exact ⟨_, rfl⟩
    · rw [set_length_append, set_length_append]
      exact ⟨_, rfl⟩

theorem handshakeConfig_eq (heap : Heap) (config : CustomTLSConfig) (hostname : GoString) :
    handshakeConfig heap config hostname =
      if config.sendServerName then
        { callerSettings heap config with
          ServerName := deriveServerName (callerSettings heap config) hostname }
      else
        { callerSettings heap config with InsecureSkipVerify := true } := by
  unfold handshakeConfig prepareConfig callerSettings
  cases config.tlsConfig with
  | none =>
    simp only [Heap.alloc, Heap.write, Heap.read]
    split
    · simp only [set_length_append, getD_length_append]
      rw [getD_append_valid _ _ _ _ (by simp), getD_length_append]
    · simp only [set_length_append, getD_length_append]
      rw [getD_append_valid _ _ _ _ (by simp), getD_length_append]
  | some p =>
    simp only [Heap.alloc, Heap.write, Heap.read]
    split
    · simp only [set_length_append, getD_length_append, getD_append_single]
    · simp only [set_length_append, getD_length_append, getD_append_single]

theorem prepareConfig_caller (heap : Heap) (config : CustomTLSConfig) (hostname : GoString)
    (hv : ValidConfig heap config) :
    (prepareConfig heap config hostname).heap.read
        (prepareConfig heap config hostname).tlsConfig = callerSettings heap config := by
  unfold prepareConfig callerSettings
  cases hc : config.tlsConfig with
  | none =>
    simp only [Heap.alloc, Heap.write, Heap.read]
    split
    · simp only [set_length_append]
      rw [getD_append_valid _ _ _ _ (by simp), getD_length_append]
    · simp only [set_length_append]
      rw [getD_append_valid _ _ _ _ (by simp), getD_length_append]
  | some p =>
    have hp : p < heap.length := hv p hc
    simp only [Heap.alloc, Heap.write, Heap.read]
    split
    · simp only [set_length_append]
      exact getD_append_valid _ _ _ _ hp
    · simp only [set_length_append]
      exact getD_append_valid _ _ _ _ hp

/-! ## Dial lemmas -/

theorem dial_refused (env : Env) (heap : Heap) (dialer : Dialer) (network addr : GoString)
    (config : CustomTLSConfig) (err : Error)
    (h : env.dial network (dialAddress config addr) = some err) :
    CustomTLSDialWithDialer env heap dialer network addr config =
      { result := Except.ok (none, some err),
        events := openingEvents env dialer network addr config, heap := heap } := by
  simp only [CustomTLSDialWithDialer, h, openingEvents]

theorem dial_opened (env : Env) (heap : Heap) (dialer : Dialer) (network addr : GoString)
    (config : CustomTLSConfig) (hostname : GoString)
    (h : env.dial network (dialAddress config addr) = none)
    (hh : hostnameOf addr = Except.ok hostname) :
    CustomTLSDialWithDialer env heap dialer network addr config =
      finishDial { config := (prepareConfig heap config hostname).tlsConfigCopy }
        (postVerify env config (establishment env heap dialer addr config hostname).1
          (prepareConfig heap config hostname)).1
        (openingEvents env dialer network addr config ++
          (establishment env heap dialer addr config hostname).2 ++
          [Event.established (establishment env heap dialer addr config hostname).1] ++
          (postVerify env config (establishment env heap dialer addr config hostname).1
            (prepareConfig heap config hostname)).2)
        (prepareConfig heap config hostname).heap := by
  simp only [CustomTLSDialWithDialer, h, hh, openingEvents, establishment, handshakeConfig]

theorem postVerify_err (env : Env) (config : CustomTLSConfig) (err : Error)
    (prep : Prepared) :
    postVerify env config (some err) prep = (Except.ok (some err), []) := by
  simp [postVerify]

theorem postVerify_legacy (env : Env) (config : CustomTLSConfig) (prep : Prepared)
    (pinned : Certificate) (h : config.verifyLegacyCertificate = some pinned) :
    postVerify env config none prep =
      (verifyLegacyCertificate env.peerCertificates pinned,
        [Event.verifyLegacy (verifyLegacyCertificate env.peerCertificates pinned)]) := by
  simp [postVerify, h]

theorem postVerify_chain (env : Env) (config : CustomTLSConfig) (prep : Prepared)
    (h : config.verifyLegacyCertificate = none) (hs : config.sendServerName = false)
    (hk : (prep.heap.read prep.tlsConfig).InsecureSkipVerify = false) :
    postVerify env config none prep =
      (verifyServerCerts env.verify env.verifyTime env.peerCertificates prep.serverName
          (prep.heap.read prep.tlsConfigCopy).RootCAs,
        [Event.verifyChain (verifyServerCerts env.verify env.verifyTime env.peerCertificates
          prep.serverName (prep.heap.read prep.tlsConfigCopy).RootCAs)]) := by
  simp [postVerify, h, hs, hk]

theorem postVerify_skipped (env : Env) (config : CustomTLSConfig) (prep : Prepared)
    (h : config.verifyLegacyCertificate = none)
    (hs : config.sendServerName = true ∨
      (prep.heap.read prep.tlsConfig).InsecureSkipVerify = true) :
    postVerify env config none prep = (Except.ok none, []) := by
  rcases hs with hs | hs <;> simp [postVerify, h, hs]

theorem postVerify_none (env : Env) (heap : Heap) (config : CustomTLSConfig)
    (hostname : GoString) (hv : ValidConfig heap config) :
    postVerify env config none (prepareConfig heap config hostname) =
      (runVerifier env (selectedVerifier config (callerSettings heap config))
          (deriveServerName (callerSettings heap config) hostname)
          (callerSettings heap config).RootCAs,
        verifierEvents (selectedVerifier config (callerSettings heap config))
          (runVerifier env (selectedVerifier config (callerSettings heap config))
            (deriveServerName (callerSettings heap config) hostname)
            (callerSettings heap config).RootCAs)) := by
  have hcaller := prepareConfig_caller heap config hostname hv
  have hcopy : ((prepareConfig heap config hostname).heap.read
      (prepareConfig heap config hostname).tlsConfigCopy).RootCAs =
      (callerSettings heap config).RootCAs := by
    have h := handshakeConfig_eq heap config hostname
    unfold handshakeConfig at h
    rw [h]
    split <;> rfl
  cases hl : config.verifyLegacyCertificate with
  | some pinned =>
    rw [postVerify_legacy env config _ pinned hl]
    simp [selectedVerifier, hl, runVerifier, verifierEvents]
  | none =>
    cases hs : config.sendServerName with
    | true =>
      rw [postVerify_skipped env config _ hl (Or.inl hs)]
      simp [selectedVerifier, hl, hs, runVerifier, verifierEvents]
    | false =>
      cases hk : (callerSettings heap config).InsecureSkipVerify with
      | true =>
        rw [postVerify_skipped env config _ hl (Or.inr (by rw [hcaller]; exact hk))]
        simp [selectedVerifier, hl, hs, hk, runVerifier, verifierEvents]
      | false =>
        rw [postVerify_chain env config _ hl hs (by rw [hcaller]; exact hk), hcopy,
          prepareConfig_serverName]
        simp [selectedVerifier, hl, hs, hk, runVerifier, verifierEvents]

theorem timerSetup_not_post (t : Duration) : ∀ e ∈ timerSetup t, e.isPost = false := by
  intro e he
  unfold timerSetup at he
  split at he
  · simp only [List.mem_cons, List.mem_singleton, List.not_mem_nil, or_false] at he
    rcases he with rfl | rfl <;> rfl
  · simp at he

theorem openingEvents_not_post (env : Env) (dialer : Dialer) (network addr : GoString)
    (config : CustomTLSConfig) :
    ∀ e ∈ openingEvents env dialer network addr config, e.isPost = false := by
  intro e he
  unfold openingEvents at he
  rcases List.mem_append.mp he with h | h
  · exact timerSetup_not_post _ e h
  · simp only [List.mem_singleton] at h
    subst h
    rfl

theorem establishConnection_direct (env : Env) (config : CustomTLSConfig)
    (addr hostname : GoString) (c : TLSConfig) (hp : config.httpProxyAddress = []) :
    establishConnection env config addr hostname c =
      (env.handshake c, [Event.handshake c]) := by
  simp [establishConnection, hp]

theorem establishConnection_write_failed (env : Env) (config : CustomTLSConfig)
    (addr hostname : GoString) (c : TLSConfig) (err : Error)
    (hp : config.httpProxyAddress ≠ [])
    (hw : env.write (connectRequest addr hostname) = some err) :
    establishConnection env config addr hostname c =
      (some err, [Event.write (connectRequest addr hostname)]) := by
  simp [establishConnection, hp, hw]

theorem establishConnection_read_failed (env : Env) (config : CustomTLSConfig)
    (addr hostname : GoString) (c : TLSConfig) (err : Error)
    (hp : config.httpProxyAddress ≠ [])
    (hw : env.write (connectRequest addr hostname) = none)
    (hr : (readFull env.reply env.replyEnd expectedResponse.length).2 = some err) :
    establishConnection env config addr hostname c =
      (some err, [Event.write (connectRequest addr hostname),
        Event.readFull (readFull env.reply env.replyEnd expectedResponse.length).1]) := by
  simp [establishConnection, hp, hw, hr]

theorem establishConnection_mismatch (env : Env) (config : CustomTLSConfig)
    (addr hostname : GoString) (c : TLSConfig)
    (hp : config.httpProxyAddress ≠ [])
    (hw : env.write (connectRequest addr hostname) = none)
    (hr : (readFull env.reply env.replyEnd expectedResponse.length).2 = none)
    (hm : (readFull env.reply env.replyEnd expectedResponse.length).1 ≠ expectedResponse) :
    establishConnection env config addr hostname c =
      (some (Error.proxyResponse
          (readFull env.reply env.replyEnd expectedResponse.length).1),
        [Event.write (connectRequest addr hostname),
          Event.readFull (readFull env.reply env.replyEnd expectedResponse.length).1]) := by
  simp [establishConnection, hp, hw, hr, hm]

theorem establishConnection_tunnelled (env : Env) (config : CustomTLSConfig)
    (addr hostname : GoString) (c : TLSConfig)
    (hp : config.httpProxyAddress ≠ [])
    (hw : env.write (connectRequest addr hostname) = none)
    (hr : (readFull env.reply env.replyEnd expectedResponse.length).2 = none)
    (hm : (readFull env.reply env.replyEnd expectedResponse.length).1 = expectedResponse) :
    establishConnection env config addr hostname c =
      (env.handshake c,
        [Event.write (connectRequest addr hostname),
          Event.readFull (readFull env.reply env.replyEnd expectedResponse.length).1,
          Event.handshake c]) := by
  simp [establishConnection, hp, hw, hr, hm]

theorem establishConnection_not_post (env : Env) (config : CustomTLSConfig)
    (addr hostname : GoString) (c : TLSConfig) :
    ∀ e ∈ (establishConnection env config addr hostname c).2, e.isPost = false := by
  intro e he
  by_cases hp : config.httpProxyAddress = []
  · rw [establishConnection_direct _ _ _ _ _ hp] at he
    simp only [List.mem_singleton] at he
    subst he; rfl
  · cases hw : env.write (connectRequest addr hostname) with
    | some err =>
      rw [establishConnection_write_failed _ _ _ _ _ err hp hw] at he
      simp only [List.mem_singleton] at he
      subst he; rfl
    | none =>
      cases hr : (readFull env.reply env.replyEnd expectedResponse.length).2 with
      | some err =>
        rw [establishConnection_read_failed _ _ _ _ _ err hp hw hr] at he
        simp only [List.mem_cons, List.mem_singleton, List.not_mem_nil, or_false] at he
        rcases he with rfl | rfl <;> rfl
      | none =>
        by_cases hm : (readFull env.reply env.replyEnd expectedResponse.length).1 =
            expectedResponse
        · rw [establishConnection_tunnelled _ _ _ _ _ hp hw hr hm] at he
          simp only [List.mem_cons, List.mem_singleton, List.not_mem_nil, or_false] at he
          rcases he with rfl | rfl | rfl <;> rfl
        · rw [establishConnection_mismatch _ _ _ _ _ hp hw hr hm] at he
          simp only [List.mem_cons, List.mem_singleton, List.not_mem_nil, or_false] at he
          rcases he with rfl | rfl <;> rfl

theorem establishment_not_post (env : Env) (heap : Heap) (dialer : Dialer) (addr : GoString)
    (config : CustomTLSConfig) (hostname : GoString) :
    ∀ e ∈ (establishment env heap dialer addr config hostname).2, e.isPost = false := by
  intro e he
  unfold establishment awaitEstablishment at he
  split at he
  · exact establishConnection_not_post _ _ _ _ _ e he
  · split at he
    · simp only [List.mem_append, List.mem_singleton] at he
      rcases he with (rfl | h) | rfl
      · rfl
      · exact establishConnection_not_post _ _ _ _ _ e (List.mem_of_mem_take h)
      · rfl
    · simp only [List.mem_append, List.mem_singleton] at he
      rcases he with (rfl | h) | rfl
      · rfl
      · exact establishConnection_not_post _ _ _ _ _ e h
      · rfl

theorem postVerify_events (env : Env) (config : CustomTLSConfig) (err : Option Error)
    (prep : Prepared) :
    (postVerify env config err prep).2 = [] ∨
      (postVerify env config err prep).2 =
        [Event.verifyLegacy (postVerify env config err prep).1] ∨
      (postVerify env config err prep).2 =
        [Event.verifyChain (postVerify env config err prep).1] := by
  cases err with
  | some e => left; rw [postVerify_err]
  | none =>
    cases hl : config.verifyLegacyCertificate with
    | some pinned => right; left; rw [postVerify_legacy env config prep pinned hl]
    | none =>
      cases hs : config.sendServerName with
      | true => left; rw [postVerify_skipped env config prep hl (Or.inl hs)]
      | false =>
        cases hk : (prep.heap.read prep.tlsConfig).InsecureSkipVerify with
        | true => left; rw [postVerify_skipped env config prep hl (Or.inr hk)]
        | false => right; right; rw [postVerify_chain env config prep hl hs hk]

theorem postVerify_no_close (env : Env) (config : CustomTLSConfig) (err : Option Error)
    (prep : Prepared) : Event.close ∉ (postVerify env config err prep).2 := by
  rcases postVerify_events env config err prep with h | h | h <;> rw [h] <;> simp

theorem pre_no_close (env : Env) (heap : Heap) (dialer : Dialer) (network addr : GoString)
    (config : CustomTLSConfig) (hostname : GoString) :
    Event.close ∉ openingEvents env dialer network addr config ++
      (establishment env heap dialer addr config hostname).2 := by
  intro h
  rcases List.mem_append.mp h with h | h
  · exact absurd (openingEvents_not_post env dialer network addr config _ h) (by decide)
  · exact absurd (establishment_not_post env heap dialer addr config hostname _ h) (by decide)

/-- C4: in a dial whose raw transport opened, a returned error comes with a nil
connection and with the transport closed, exactly once, as the last action before the
return; a returned connection comes with a nil error and with no close of the transport
by the dial routine. -/
theorem dial_error_closes_transport (env : Env) (heap : Heap) (dialer : Dialer)
    (network addr : GoString) (config : CustomTLSConfig)
    (hopen : env.dial network (dialAddress config addr) = none) :
    (∀ conn err,
      (CustomTLSDialWithDialer env heap dialer network addr config).result =
        Except.ok (conn, some err) →
      conn = none ∧
      (CustomTLSDialWithDialer env heap dialer network addr config).events.getLast? =
        some Event.close ∧
      (CustomTLSDialWithDialer env heap dialer network addr config).events.count
        Event.close = 1) ∧
    (∀ conn err,
      (CustomTLSDialWithDialer env heap dialer network addr config).result =
        Except.ok (some conn, err) →
      err = none ∧
      Event.close ∉ (CustomTLSDialWithDialer env heap dialer network addr config).events) := by
  obtain ⟨hostname, hh, -⟩ := hostnameOf_total addr
  rw [dial_opened env heap dialer network addr config hostname hopen hh]
  have hpre := pre_no_close env heap dialer network addr config hostname
  have hpost := postVerify_no_close env config
    (establishment env heap dialer addr config hostname).1 (prepareConfig heap config hostname)
  generalize (postVerify env config (establishment env heap dialer addr config hostname).1
    (prepareConfig heap config hostname)) = v at hpost
  have hnc : Event.close ∉ openingEvents env dialer network addr config ++
      (establishment env heap dialer addr config hostname).2 ++
      [Event.established (establishment env heap dialer addr config hostname).1] ++ v.2 := by
    simp only [List.mem_append, List.mem_singleton, not_or]
    simp only [List.mem_append, not_or] at hpre
    exact ⟨⟨⟨hpre.1, hpre.2⟩, by simp⟩, hpost⟩
  generalize openingEvents env dialer network addr config ++
      (establishment env heap dialer addr config hostname).2 ++
      [Event.established (establishment env heap dialer addr config hostname).1] ++ v.2 = evs
    at hnc
  rcases hv1 : v.1 with p | r
  · simp [finishDial]
  · cases r with
    | some e =>
      simp only [finishDial]
      refine ⟨?_, ?_⟩
      · intro conn err h
        simp only [Except.ok.injEq, Prod.mk.injEq] at h
        refine ⟨h.1.symm, by simp, ?_⟩
        rw [List.count_append, List.count_eq_zero_of_not_mem hnc]
        simp
      · intro conn err h
        simp at h
    | none =>
      simp only [finishDial]
      refine ⟨?_, ?_⟩
      · intro conn err h
        simp at h
      · intro conn err h
        simp only [Except.ok.injEq, Prod.mk.injEq] at h
        exact ⟨h.2.symm, hnc⟩

theorem dial_opened_err (env : Env) (heap : Heap) (dialer : Dialer) (network addr : GoString)
    (config : CustomTLSConfig) (hostname : GoString) (err : Error)
    (h : env.dial network (dialAddress config addr) = none)
    (hh : hostnameOf addr = Except.ok hostname)
    (he : (establishment env heap dialer addr config hostname).1 = some err) :
    CustomTLSDialWithDialer env heap dialer network addr config =
      { result := Except.ok (none, some err),
        events := openingEvents env dialer network addr config ++
          (establishment env heap dialer addr config hostname).2 ++
          [Event.established (some err)] ++ [] ++ [Event.close],
        heap := (prepareConfig heap config hostname).heap } := by
  rw [dial_opened env heap dialer network addr config hostname h hh, he, postVerify_err]
  rfl

theorem dial_opened_ok (env : Env) (heap : Heap) (dialer : Dialer) (network addr : GoString)
    (config : CustomTLSConfig) (hostname : GoString) (hv : ValidConfig heap config)
    (h : env.dial network (dialAddress config addr) = none)
    (hh : hostnameOf addr = Except.ok hostname)
    (he : (establishment env heap dialer addr config hostname).1 = none) :
    CustomTLSDialWithDialer env heap dialer network addr config =
      finishDial { config := (prepareConfig heap config hostname).tlsConfigCopy }
        (runVerifier env (selectedVerifier config (callerSettings heap config))
          (deriveServerName (callerSettings heap config) hostname)
          (callerSettings heap config).RootCAs)
        (openingEvents env dialer network addr config ++
          (establishment env heap dialer addr config hostname).2 ++
          [Event.established none] ++
          verifierEvents (selectedVerifier config (callerSettings heap config))
            (runVerifier env (selectedVerifier config (callerSettings heap config))
              (deriveServerName (callerSettings heap config) hostname)
              (callerSettings heap config).RootCAs))
        (prepareConfig heap config hostname).heap := by
  rw [dial_opened env heap dialer network addr config hostname h hh, he,
    postVerify_none env heap config hostname hv]

theorem finishDial_events_mem (conn : Conn) (v : Except Panic (Option Error))
    (events : List Event) (heap : Heap) (e : Event)
    (h : e ∈ (finishDial conn v events heap).events) : e ∈ events ∨ e = Event.close := by
  unfold finishDial at h
  split at h
  · exact Or.inl h
  · rcases List.mem_append.mp h with h | h
    · exact Or.inl h
    · exact Or.inr (List.mem_singleton.mp h)
  · exact Or.inl h

theorem finishDial_connection (conn c : Conn) (v : Except Panic (Option Error))
    (events : List Event) (heap : Heap) (err : Option Error)
    (h : (finishDial conn v events heap).result = Except.ok (some c, err)) :
    v = Except.ok none := by
  unfold finishDial at h
  split at h
  · simp at h
  · simp at h
  · rfl

theorem verifier_filter_pre (l : List Event) (h : ∀ e ∈ l, e.isPost = false) :
    l.filter (fun e => e.isVerifyLegacy || e.isVerifyChain) = [] := by
  rw [List.filter_eq_nil_iff]
  intro e he
  have hp := h e he
  cases e <;> simp_all [Event.isPost, Event.isVerifyLegacy, Event.isVerifyChain]

theorem verifier_filter_finish (conn : Conn) (v : Except Panic (Option Error))
    (events : List Event) (heap : Heap) :
    (finishDial conn v events heap).events.filter
        (fun e => e.isVerifyLegacy || e.isVerifyChain) =
      events.filter (fun e => e.isVerifyLegacy || e.isVerifyChain) := by
  unfold finishDial
  split
  · rfl
  · simp [List.filter_append, Event.isVerifyLegacy, Event.isVerifyChain]
  · rfl

theorem verifierRuns_refused (env : Env) (heap : Heap) (dialer : Dialer)
    (network addr : GoString) (config : CustomTLSConfig) (err : Error)
    (h : env.dial network (dialAddress config addr) = some err) :
    verifierRuns (CustomTLSDialWithDialer env heap dialer network addr config).events = [] := by
  rw [dial_refused env heap dialer network addr config err h]
  exact verifier_filter_pre _ (openingEvents_not_post env dialer network addr config)

theorem verifierRuns_err (env : Env) (heap : Heap) (dialer : Dialer)
    (network addr : GoString) (config : CustomTLSConfig) (hostname : GoString) (err : Error)
    (h : env.dial network (dialAddress config addr) = none)
    (hh : hostnameOf addr = Except.ok hostname)
    (he : (establishment env heap dialer addr config hostname).1 = some err) :
    verifierRuns (CustomTLSDialWithDialer env heap dialer network addr config).events = [] := by
  rw [dial_opened_err env heap dialer network addr config hostname err h hh he]
  simp only [verifierRuns, List.filter_append]
  rw [verifier_filter_pre _ (openingEvents_not_post env dialer network addr config),
    verifier_filter_pre _ (establishment_not_post env heap dialer addr config hostname)]
  simp [Event.isVerifyLegacy, Event.isVerifyChain]

theorem verifierRuns_ok (env : Env) (heap : Heap) (dialer : Dialer)
    (network addr : GoString) (config : CustomTLSConfig) (hostname : GoString)
    (hv : ValidConfig heap config)
    (h : env.dial network (dialAddress config addr) = none)
    (hh : hostnameOf addr = Except.ok hostname)
    (he : (establishment env heap dialer addr config hostname).1 = none) :
    verifierRuns (CustomTLSDialWithDialer env heap dialer network addr config).events =
      verifierEvents (selectedVerifier config (callerSettings heap config))
        (runVerifier env (selectedVerifier config (callerSettings heap config))
          (deriveServerName (callerSettings heap config) hostname)
          (callerSettings heap config).RootCAs) := by
  rw [dial_opened_ok env heap dialer network addr config hostname hv h hh he]
  unfold verifierRuns
  rw [verifier_filter_finish]
  simp only [List.filter_append]
  rw [verifier_filter_pre _ (openingEvents_not_post env dialer network addr config),
    verifier_filter_pre _ (establishment_not_post env heap dialer addr config hostname)]
  cases selectedVerifier config (callerSettings heap config) <;>
    simp [verifierEvents, Event.isVerifyLegacy, Event.isVerifyChain]

/-- C2: a dial returns a connection only if the transport opened, the establishment step
returned no error and the verifier selected by the configuration returned no error. The
verifier runs of a dial are either none, or, after an establishment step without error,
the single run of the selected verifier; so at most one verifier runs, and none runs when
the establishment step returned an error. -/
theorem dial_verifier_selection (env : Env) (heap : Heap) (dialer : Dialer)
    (network addr : GoString) (config : CustomTLSConfig) (hv : ValidConfig heap config) :
    (∀ conn err,
      (CustomTLSDialWithDialer env heap dialer network addr config).result =
        Except.ok (some conn, err) →
      env.dial network (dialAddress config addr) = none ∧
      ∃ hostname, hostnameOf addr = Except.ok hostname ∧
        (establishment env heap dialer addr config hostname).1 = none ∧
        runVerifier env (selectedVerifier config (callerSettings heap config))
          (deriveServerName (callerSettings heap config) hostname)
          (callerSettings heap config).RootCAs = Except.ok none) ∧
    (verifierRuns (CustomTLSDialWithDialer env heap dialer network addr config).events = [] ∨
      ∃ hostname, hostnameOf addr = Except.ok hostname ∧
        (establishment env heap dialer addr config hostname).1 = none ∧
        verifierRuns (CustomTLSDialWithDialer env heap dialer network addr config).events =
          verifierEvents (selectedVerifier config (callerSettings heap config))
            (runVerifier env (selectedVerifier config (callerSettings heap config))
              (deriveServerName (callerSettings heap config) hostname)
              (callerSettings heap config).RootCAs)) ∧
    (verifierRuns
      (CustomTLSDialWithDialer env heap dialer network addr config).events).length ≤ 1 ∧
    (∀ hostname err, hostnameOf addr = Except.ok hostname →
      (establishment env heap dialer addr config hostname).1 = some err →
      verifierRuns (CustomTLSDialWithDialer env heap dialer network addr config).events = []) := by
  obtain ⟨hostname, hh, -⟩ := hostnameOf_total addr
  cases hd : env.dial network (dialAddress config addr) with
  | some derr =>
    have hr := verifierRuns_refused env heap dialer network addr config derr hd
    refine ⟨?_, Or.inl hr, by simp [hr], fun _ _ _ _ => hr⟩
    intro conn err h
    rw [dial_refused env heap dialer network addr config derr hd] at h
    simp at h
  | none =>
    cases he : (establishment env heap dialer addr config hostname).1 with
    | some eerr =>
      have hr := verifierRuns_err env heap dialer network addr config hostname eerr hd hh he
      refine ⟨?_, Or.inl hr, by simp [hr], fun _ _ _ _ => hr⟩
      intro conn err h
      rw [dial_opened_err env heap dialer network addr config hostname eerr hd hh he] at h
      simp at h
    | none =>
      have hr := verifierRuns_ok env heap dialer network addr config hostname hv hd hh he
      refine ⟨?_, Or.inr ⟨hostname, hh, he, hr⟩, ?_, ?_⟩
      · intro conn err h
        rw [dial_opened_ok env heap dialer network addr config hostname hv hd hh he] at h
        exact ⟨rfl, hostname, hh, he, finishDial_connection _ _ _ _ _ _ h⟩
      · rw [hr]
        cases selectedVerifier config (callerSettings heap config) <;> simp [verifierEvents]
      · intro hostname2 err hh2 he2
        rw [hh] at hh2
        cases hh2
        rw [he] at he2
        cases he2

/-- C3 (amended): with `sendServerName` false, no legacy certificate and skip-verify not
set in the caller's TLS settings, after an establishment step without error on a server
that presented `leaf :: rest`, the dial returns the connection when chain verification of
`leaf` (trust roots of the settings, derived server name, `rest` as intermediates)
succeeds, and returns that verifier's error with no connection when it fails. -/
theorem dial_chain_verification (env : Env) (heap : Heap) (dialer : Dialer)
    (network addr : GoString) (config : CustomTLSConfig) (hostname : GoString)
    (leaf : Certificate) (rest : List Certificate)
    (hv : ValidConfig heap config)
    (hs : config.sendServerName = false)
    (hl : config.verifyLegacyCertificate = none)
    (hk : (callerSettings heap config).InsecureSkipVerify = false)
    (hd : env.dial network (dialAddress config addr) = none)
    (hh : hostnameOf addr = Except.ok hostname)
    (he : (establishment env heap dialer addr config hostname).1 = none)
    (hc : env.peerCertificates = leaf :: rest) :
    (env.verify leaf
        { Roots := (callerSettings heap config).RootCAs, CurrentTime := env.verifyTime,
          DNSName := deriveServerName (callerSettings heap config) hostname,
          Intermediates := rest } = none →
      (CustomTLSDialWithDialer env heap dialer network addr config).result =
        Except.ok (some { config := (prepareConfig heap config hostname).tlsConfigCopy },
          none)) ∧
    (∀ err, env.verify leaf
        { Roots := (callerSettings heap config).RootCAs, CurrentTime := env.verifyTime,
          DNSName := deriveServerName (callerSettings heap config) hostname,
          Intermediates := rest } = some err →
      (CustomTLSDialWithDialer env heap dialer network addr config).result =
        Except.ok (none, some err)) := by
  have hsel : selectedVerifier config (callerSettings heap config) = Verifier.chain := by
    simp [selectedVerifier, hl, hs, hk]
  have hint : ∀ (l : List Certificate) (n : Nat) (pool : CertPool),
      addIntermediates (n + 1) l pool = pool ++ l := by
    intro l
    induction l with
    | nil => intro n pool; simp [addIntermediates]
    | cons c t ih =>
      intro n pool
      simp [addIntermediates, ih, CertPool.AddCert]
  have hrun : runVerifier env Verifier.chain
      (deriveServerName (callerSettings heap config) hostname)
      (callerSettings heap config).RootCAs =
      Except.ok (env.verify leaf
        { Roots := (callerSettings heap config).RootCAs, CurrentTime := env.verifyTime,
          DNSName := deriveServerName (callerSettings heap config) hostname,
          Intermediates := rest }) := by
    simp only [runVerifier, verifyServerCerts, hc, index_cons, addIntermediates]
    simp [hint]
  rw [dial_opened_ok env heap dialer network addr config hostname hv hd hh he, hsel, hrun]
  refine ⟨?_, ?_⟩
  · intro h
    rw [h]
    rfl
  · intro err h
    rw [h]
    rfl

/-! ## Proxy tunnel -/

theorem expectedResponse_length : expectedResponse.length = 19 := by decide

theorem readFull_enough (data : Bytes) (endErr : Error) (n : Nat) (h : n ≤ data.length) :
    readFull data endErr n = (data.take n, none) := by
  simp [readFull, h]

theorem readFull_short (data : Bytes) (endErr : Error) (n : Nat) (h : data.length < n) :
    ∃ err, (readFull data endErr n).2 = some err := by
  have h2 : ¬ n ≤ data.length := Nat.not_le_of_lt h
  simp [readFull, h2]

theorem take_expected_length (reply : Bytes) (h : reply.take 19 = expectedResponse) :
    19 ≤ reply.length := by
  have hl : (reply.take 19).length = 19 := by rw [h, expectedResponse_length]
  rw [List.length_take] at hl
  omega

theorem establishConnection_rejects (env : Env) (config : CustomTLSConfig)
    (addr hostname : GoString) (c : TLSConfig) (hp : config.httpProxyAddress ≠ [])
    (hbad : env.reply.take 19 ≠ expectedResponse) :
    (∃ err, (establishConnection env config addr hostname c).1 = some err) ∧
      ∀ e ∈ (establishConnection env config addr hostname c).2, e.isHandshake = false := by
  cases hw : env.write (connectRequest addr hostname) with
  | some err =>
    rw [establishConnection_write_failed _ _ _ _ _ err hp hw]
    exact ⟨⟨err, rfl⟩, by intro e he; simp at he; subst he; rfl⟩
  | none =>
    cases hr : (readFull env.reply env.replyEnd expectedResponse.length).2 with
    | some err =>
      rw [establishConnection_read_failed _ _ _ _ _ err hp hw hr]
      refine ⟨⟨err, rfl⟩, ?_⟩
      intro e he
      simp only [List.mem_cons, List.mem_singleton, List.not_mem_nil, or_false] at he
      rcases he with rfl | rfl <;> rfl
    | none =>
      have hlen : 19 ≤ env.reply.length := by
        by_contra hlt
        obtain ⟨err, herr⟩ := readFull_short env.reply env.replyEnd 19 (Nat.lt_of_not_le hlt)
        rw [expectedResponse_length, herr] at hr
        cases hr
      have hm : (readFull env.reply env.replyEnd expectedResponse.length).1 ≠
          expectedResponse := by
        rw [expectedResponse_length, readFull_enough _ _ _ hlen]
        exact hbad
      rw [establishConnection_mismatch _ _ _ _ _ hp hw hr hm]
      refine ⟨⟨_, rfl⟩, ?_⟩
      intro e he
      simp only [List.mem_cons, List.mem_singleton, List.not_mem_nil, or_false] at he
      rcases he with rfl | rfl <;> rfl

theorem establishConnection_accepts (env : Env) (config : CustomTLSConfig)
    (addr hostname : GoString) (c : TLSConfig) (hp : config.httpProxyAddress ≠ [])
    (hw : env.write (connectRequest addr hostname) = none)
    (hgood : env.reply.take 19 = expectedResponse) :
    establishConnection env config addr hostname c =
      (env.handshake c,
        [Event.write (connectRequest addr hostname), Event.readFull expectedResponse,
          Event.handshake c]) := by
  have hlen := take_expected_length env.reply hgood
  have hrf : readFull env.reply env.replyEnd expectedResponse.length =
      (expectedResponse, none) := by
    rw [expectedResponse_length, readFull_enough _ _ _ hlen, hgood]
  have h := establishConnection_tunnelled env config addr hostname c hp hw
    (by rw [hrf]) (by rw [hrf])
  rw [h, hrf]

theorem establishment_rejects (env : Env) (heap : Heap) (dialer : Dialer) (addr : GoString)
    (config : CustomTLSConfig) (hostname : GoString) (hp : config.httpProxyAddress ≠ [])
    (hbad : env.reply.take 19 ≠ expectedResponse) :
    (∃ err, (establishment env heap dialer addr config hostname).1 = some err) ∧
      ∀ e ∈ (establishment env heap dialer addr config hostname).2, e.isHandshake = false := by
  obtain ⟨⟨err, herr⟩, hno⟩ := establishConnection_rejects env config addr hostname
    (handshakeConfig heap config hostname) hp hbad
  unfold establishment awaitEstablishment
  split
  · exact ⟨⟨err, herr⟩, hno⟩
  · split
    · refine ⟨⟨_, rfl⟩, ?_⟩
      intro e he
      simp only [List.mem_append, List.mem_singleton] at he
      rcases he with (rfl | h) | rfl
      · rfl
      · exact hno e (List.mem_of_mem_take h)
      · rfl
    · refine ⟨⟨err, herr⟩, ?_⟩
      intro e he
      simp only [List.mem_append, List.mem_singleton] at he
      rcases he with (rfl | h) | rfl
      · rfl
      · exact hno e h
      · rfl

/-- C5: with a proxy configured and the CONNECT request written, the establishment step
starts the handshake exactly when the first 19 bytes of the reply are
`HTTP/1.1 200 OK\r\n\r\n`; for any other reply (shorter, failed, or different in some
position) the step returns an error and starts no handshake, and the dial returns an
error, no connection, and has no handshake in its trace. -/
theorem proxy_reply_gates_handshake (env : Env) (heap : Heap) (dialer : Dialer)
    (network addr : GoString) (config : CustomTLSConfig) (hostname : GoString)
    (c : TLSConfig) (hp : config.httpProxyAddress ≠ []) :
    (env.write (connectRequest addr hostname) = none →
      ((∃ e ∈ (establishConnection env config addr hostname c).2, e.isHandshake = true) ↔
        env.reply.take 19 = expectedResponse)) ∧
    (env.reply.take 19 ≠ expectedResponse →
      (∃ err, (establishConnection env config addr hostname c).1 = some err) ∧
      ∀ e ∈ (establishConnection env config addr hostname c).2, e.isHandshake = false) ∧
    (env.reply.take 19 ≠ expectedResponse →
      (∃ err, (CustomTLSDialWithDialer env heap dialer network addr config).result =
        Except.ok (none, some err)) ∧
      ∀ e ∈ (CustomTLSDialWithDialer env heap dialer network addr config).events,
        e.isHandshake = false) := by
  refine ⟨?_, establishConnection_rejects env config addr hostname c hp, ?_⟩
  · intro hw
    constructor
    · rintro ⟨e, he, hhs⟩
      by_contra hbad
      have := (establishConnection_rejects env config addr hostname c hp hbad).2 e he
      rw [this] at hhs
      cases hhs
    · intro hgood
      rw [establishConnection_accepts env config addr hostname c hp hw hgood]
      exact ⟨Event.handshake c, by simp, rfl⟩
  · intro hbad
    have hopening : ∀ e ∈ openingEvents env dialer network addr config,
        e.isHandshake = false := by
      intro e he
      unfold openingEvents timerSetup at he
      split at he
      · simp only [List.cons_append, List.nil_append, List.mem_cons, List.mem_singleton,
          List.not_mem_nil, or_false] at he
        rcases he with rfl | rfl | rfl <;> rfl
      · simp only [List.nil_append, List.mem_singleton] at he
        subst he; rfl
    cases hd : env.dial network (dialAddress config addr) with
    | some derr =>
      rw [dial_refused env heap dialer network addr config derr hd]
      exact ⟨⟨derr, rfl⟩, hopening⟩
    | none =>
      obtain ⟨h2, hh, -⟩ := hostnameOf_total addr
      obtain ⟨⟨err, herr⟩, hno⟩ := establishment_rejects env heap dialer addr config h2 hp hbad
      rw [dial_opened_err env heap dialer network addr config h2 err hd hh herr]
      refine ⟨⟨err, rfl⟩, ?_⟩
      intro e he
      simp only [List.append_nil, List.mem_append, List.mem_singleton] at he
      rcases he with ((h | h) | rfl) | rfl
      · exact hopening e h
      · exact hno e h
      · rfl
      · rfl

/-! ## Timeout -/

theorem establishConnection_steps (env : Env) (config : CustomTLSConfig)
    (addr hostname : GoString) (c : TLSConfig) :
    ∀ e ∈ (establishConnection env config addr hostname c).2, e.isTimed = false := by
  intro e he
  by_cases hp : config.httpProxyAddress = []
  · rw [establishConnection_direct _ _ _ _ _ hp] at he
    simp only [List.mem_singleton] at he
    subst he; rfl
  · cases hw : env.write (connectRequest addr hostname) with
    | some err =>
      rw [establishConnection_write_failed _ _ _ _ _ err hp hw] at he
      simp only [List.mem_singleton] at he
      subst he; rfl
    | none =>
      cases hr : (readFull env.reply env.replyEnd expectedResponse.length).2 with
      | some err =>
        rw [establishConnection_read_failed _ _ _ _ _ err hp hw hr] at he
        simp only [List.mem_cons, List.mem_singleton, List.not_mem_nil, or_false] at he
        rcases he with rfl | rfl <;> rfl
      | none =>
        by_cases hm : (readFull env.reply env.replyEnd expectedResponse.length).1 =
            expectedResponse
        · rw [establishConnection_tunnelled _ _ _ _ _ hp hw hr hm] at he
          simp only [List.mem_cons, List.mem_singleton, List.not_mem_nil, or_false] at he
          rcases he with rfl | rfl | rfl <;> rfl
        · rw [establishConnection_mismatch _ _ _ _ _ hp hw hr hm] at he
          simp only [List.mem_cons, List.mem_singleton, List.not_mem_nil, or_false] at he
          rcases he with rfl | rfl <;> rfl

theorem establishment_sync (env : Env) (heap : Heap) (dialer : Dialer) (addr : GoString)
    (config : CustomTLSConfig) (hostname : GoString)
    (h0 : effectiveTimeout dialer env.now = 0) :
    establishment env heap dialer addr config hostname =
      establishConnection env config addr hostname (handshakeConfig heap config hostname) := by
  simp [establishment, awaitEstablishment, h0]

theorem openingEvents_mem_timer (env : Env) (dialer : Dialer) (network addr : GoString)
    (config : CustomTLSConfig) (h : effectiveTimeout dialer env.now ≠ 0) :
    Event.makeChan 2 ∈ openingEvents env dialer network addr config ∧
      Event.afterFunc (effectiveTimeout dialer env.now) ∈
        openingEvents env dialer network addr config := by
  simp [openingEvents, timerSetup, h]

theorem openingEvents_sync (env : Env) (dialer : Dialer) (network addr : GoString)
    (config : CustomTLSConfig) (h : effectiveTimeout dialer env.now = 0) :
    ∀ e ∈ openingEvents env dialer network addr config, e.isTimed = false := by
  intro e he
  simp only [openingEvents, timerSetup, h, ne_eq, not_true_eq_false, if_false,
    List.nil_append, List.mem_singleton] at he
  subst he; rfl

theorem dial_events_opening (env : Env) (heap : Heap) (dialer : Dialer)
    (network addr : GoString) (config : CustomTLSConfig) :
    ∀ e ∈ openingEvents env dialer network addr config,
      e ∈ (CustomTLSDialWithDialer env heap dialer network addr config).events := by
  intro e he
  have hfin : ∀ (conn : Conn) (v : Except Panic (Option Error)) (evs : List Event) (hp : Heap),
      e ∈ evs → e ∈ (finishDial conn v evs hp).events := by
    intro conn v evs hp hmem
    unfold finishDial
    split
    · exact hmem
    · exact List.mem_append_left _ hmem
    · exact hmem
  obtain ⟨hostname, hh, -⟩ := hostnameOf_total addr
  cases hd : env.dial network (dialAddress config addr) with
  | some derr =>
    rw [dial_refused env heap dialer network addr config derr hd]
    exact he
  | none =>
    rw [dial_opened env heap dialer network addr config hostname hd hh]
    apply hfin
    simp only [List.mem_append]
    exact Or.inl (Or.inl (Or.inl he))

theorem dial_events_sync (env : Env) (heap : Heap) (dialer : Dialer)
    (network addr : GoString) (config : CustomTLSConfig)
    (h0 : effectiveTimeout dialer env.now = 0) :
    ∀ e ∈ (CustomTLSDialWithDialer env heap dialer network addr config).events,
      e.isTimed = false := by
  intro e he
  obtain ⟨hostname, hh, -⟩ := hostnameOf_total addr
  cases hd : env.dial network (dialAddress config addr) with
  | some derr =>
    rw [dial_refused env heap dialer network addr config derr hd] at he
    exact openingEvents_sync env dialer network addr config h0 e he
  | none =>
    rw [dial_opened env heap dialer network addr config hostname hd hh] at he
    rcases finishDial_events_mem _ _ _ _ _ he with h | rfl
    · simp only [List.mem_append, List.mem_singleton] at h
      rcases h with ((h | h) | rfl) | h
      · exact openingEvents_sync env dialer network addr config h0 e h
      · rw [establishment_sync env heap dialer addr config hostname h0] at h
        exact establishConnection_steps _ _ _ _ _ e h
      · rfl
      · rcases postVerify_events env config
          (establishment env heap dialer addr config hostname).1
          (prepareConfig heap config hostname) with h2 | h2 | h2
        · rw [h2] at h; simp at h
        · rw [h2] at h; simp only [List.mem_singleton] at h; subst h; rfl
        · rw [h2] at h; simp only [List.mem_singleton] at h; subst h; rfl
    · rfl

/-- C9: the effective timeout is the smaller of the timeout and the time left to the
deadline when both are set, the one that is set when only one is, and zero when neither
is. The two-slot channel and the timer are created exactly when it is non-zero; when it is
zero the trace has no channel, timer, background task or receive, and the establishment
step is run directly. -/
theorem effectiveTimeout_spec (env : Env) (heap : Heap) (dialer : Dialer)
    (network addr : GoString) (config : CustomTLSConfig) :
    (dialer.Timeout ≠ 0 → dialer.Deadline ≠ 0 →
      effectiveTimeout dialer env.now = min dialer.Timeout (dialer.Deadline.Sub env.now)) ∧
    (dialer.Timeout ≠ 0 → dialer.Deadline = 0 →
      effectiveTimeout dialer env.now = dialer.Timeout) ∧
    (dialer.Timeout = 0 → dialer.Deadline ≠ 0 →
      effectiveTimeout dialer env.now = dialer.Deadline.Sub env.now) ∧
    (dialer.Timeout = 0 → dialer.Deadline = 0 → effectiveTimeout dialer env.now = 0) ∧
    (Event.makeChan 2 ∈ (CustomTLSDialWithDialer env heap dialer network addr config).events ↔
      effectiveTimeout dialer env.now ≠ 0) ∧
    (Event.afterFunc (effectiveTimeout dialer env.now) ∈
        (CustomTLSDialWithDialer env heap dialer network addr config).events ↔
      effectiveTimeout dialer env.now ≠ 0) ∧
    (effectiveTimeout dialer env.now = 0 →
      (∀ e ∈ (CustomTLSDialWithDialer env heap dialer network addr config).events,
        e.isTimed = false) ∧
      ∀ hostname, establishment env heap dialer addr config hostname =
        establishConnection env config addr hostname
          (handshakeConfig heap config hostname)) := by
  refine ⟨?_, ?_, ?_, ?_, ?_, ?_, ?_⟩
  · intro ht hd
    have hz : Time.IsZero dialer.Deadline = false := by simp [Time.IsZero, hd]
    simp only [effectiveTimeout, hz, ht, false_or]
    by_cases hlt : Time.Sub dialer.Deadline env.now < dialer.Timeout
    · simp [hlt, min_eq_right (le_of_lt hlt)]
    · simp [hlt, min_eq_left (not_lt.mp hlt)]
  · intro _ hd
    simp [effectiveTimeout, Time.IsZero, hd]
  · intro ht hd
    simp [effectiveTimeout, Time.IsZero, hd, ht]
  · intro ht hd
    simp [effectiveTimeout, Time.IsZero, hd, ht]
  · constructor
    · intro hmem h0
      have := dial_events_sync env heap dialer network addr config h0 _ hmem
      simp [Event.isTimed] at this
    · intro hne
      exact dial_events_opening env heap dialer network addr config _
        (openingEvents_mem_timer env dialer network addr config hne).1
  · constructor
    · intro hmem h0
      have := dial_events_sync env heap dialer network addr config h0 _ hmem
      simp [Event.isTimed] at this
    · intro hne
      exact dial_events_opening env heap dialer network addr config _
        (openingEvents_mem_timer env dialer network addr config hne).2
  · intro h0
    exact ⟨dial_events_sync env heap dialer network addr config h0,
      fun hostname => establishment_sync env heap dialer addr config hostname h0⟩

/-! ## Caller settings -/

theorem finishDial_heap (conn : Conn) (v : Except Panic (Option Error))
    (events : List Event) (heap : Heap) : (finishDial conn v events heap).heap = heap := by
  unfold finishDial
  split <;> rfl

theorem dial_heap (env : Env) (heap : Heap) (dialer : Dialer)
    (network addr : GoString) (config : CustomTLSConfig) :
    ∃ suffix, (CustomTLSDialWithDialer env heap dialer network addr config).heap =
      heap ++ suffix := by
  obtain ⟨hostname, hh, -⟩ := hostnameOf_total addr
  cases hd : env.dial network (dialAddress config addr) with
  | some derr =>
    rw [dial_refused env heap dialer network addr config derr hd]
    exact ⟨[], by simp⟩
  | none =>
    rw [dial_opened env heap dialer network addr config hostname hd hh, finishDial_heap]
    exact prepareConfig_heap heap config hostname

/-- C7: after the dial returns, with a connection, an error or a panic, every object that
was in the store before the call, the caller's TLS settings among them, has the value it
had before: the store has only grown, and the copy the routine adjusts is a new object. -/
theorem dial_preserves_caller_settings (env : Env) (heap : Heap) (dialer : Dialer)
    (network addr : GoString) (config : CustomTLSConfig) :
    (∃ suffix, (CustomTLSDialWithDialer env heap dialer network addr config).heap =
      heap ++ suffix) ∧
    (∀ p, p < heap.length →
      (CustomTLSDialWithDialer env heap dialer network addr config).heap.read p =
        heap.read p) ∧
    (∀ p, config.tlsConfig = some p → p < heap.length →
      ((CustomTLSDialWithDialer env heap dialer network addr config).heap.read p).ServerName =
          (heap.read p).ServerName ∧
        ((CustomTLSDialWithDialer env heap dialer network addr
          config).heap.read p).InsecureSkipVerify = (heap.read p).InsecureSkipVerify) ∧
    (∀ hostname, heap.length ≤ (prepareConfig heap config hostname).tlsConfigCopy) := by
  obtain ⟨suffix, hs⟩ := dial_heap env heap dialer network addr config
  have hread : ∀ p, p < heap.length →
      (CustomTLSDialWithDialer env heap dialer network addr config).heap.read p =
        heap.read p := by
    intro p hp
    rw [hs]
    exact getD_append_valid heap suffix p _ hp
  refine ⟨⟨suffix, hs⟩, hread, ?_, ?_⟩
  · intro p _ hp
    rw [hread p hp]
    exact ⟨rfl, rfl⟩
  · intro hostname
    unfold prepareConfig
    cases config.tlsConfig with
    | none => simp [Heap.alloc]
    | some p => simp [Heap.alloc]

/-! ## Settled statements at concrete inputs -/

theorem valid_plainHeap (config : CustomTLSConfig) (h : config.tlsConfig = some 0) :
    ValidConfig plainHeap config := by
  intro p hp
  rw [h] at hp
  cases hp
  decide

theorem valid_skipVerifyHeap (config : CustomTLSConfig) (h : config.tlsConfig = some 0) :
    ValidConfig skipVerifyHeap config := by
  intro p hp
  rw [h] at hp
  cases hp
  decide

/-- With `sendServerName` false the configuration handed to the handshake has built-in
verification disabled and carries the server name of the caller's settings unchanged. -/
theorem handshakeConfig_unsent (heap : Heap) (config : CustomTLSConfig) (hostname : GoString)
    (hs : config.sendServerName = false) :
    (handshakeConfig heap config hostname).InsecureSkipVerify = true ∧
      (handshakeConfig heap config hostname).ServerName =
        (callerSettings heap config).ServerName := by
  rw [handshakeConfig_eq, hs]
  exact ⟨rfl, rfl⟩

/-- C6: with `sendServerName` false and caller settings whose `ServerName` is
`front.example`, the configuration handed to the handshake still has that `ServerName`
(only built-in verification is disabled), so the claim that it is empty fails here. -/
theorem handshake_keeps_caller_serverName :
    chainConfig.sendServerName = false ∧
      Event.handshake { ServerName := ascii "front.example", InsecureSkipVerify := true } ∈
        (CustomTLSDialWithDialer (okEnv [leafCert]) namedHeap {} tcp target
          chainConfig).events ∧
      (handshakeConfig namedHeap chainConfig (ascii "example.com")).ServerName ≠ [] := by
  decide

theorem addIntermediates_rest (l : List Certificate) (n : Nat) (pool : CertPool) :
    addIntermediates (n + 1) l pool = pool ++ l := by
  induction l generalizing n pool with
  | nil => simp [addIntermediates]
  | cons c t ih => simp [addIntermediates, ih, CertPool.AddCert]

/-- C10 as stated, for every peer certificate list the empty one included, is false: on
the empty list `verifyServerCerts` returns no result, the index `certs[0]` is out of
range. -/
theorem verifyServerCerts_total_counterexample :
    ¬ ∀ (verify : Certificate → VerifyOptions → Option Error) (now : Time)
        (certs : List Certificate) (serverName : GoString) (roots : Option CertPool),
        ∃ r, verifyServerCerts verify now certs serverName roots = Except.ok r := by
  intro h
  obtain ⟨r, hr⟩ := h (fun _ _ => none) 0 [] [] none
  have hp : verifyServerCerts (fun _ _ => none) 0 [] [] none =
      Except.error (Panic.indexOutOfRange 0 0) := rfl
  rw [hp] at hr
  cases hr

/-- C10 (amended): for every peer certificate list with at least one certificate, the one
a completed handshake leaves, `verifyServerCerts` reads `certs[0]` in range and returns
the result of verifying that leaf with the configured roots, the server name and the
remaining certificates as intermediates; `verifyLegacyCertificate` returns
`no certificate to verify` for the empty list. -/
theorem verifyServerCerts_nonempty
    (verify : Certificate → VerifyOptions → Option Error) (now : Time)
    (leaf : Certificate) (rest : List Certificate) (serverName : GoString)
    (roots : Option CertPool) (pinned : Certificate) :
    index (leaf :: rest) 0 = Except.ok leaf ∧
      verifyServerCerts verify now (leaf :: rest) serverName roots =
        Except.ok (verify leaf
          { Roots := roots, CurrentTime := now, DNSName := serverName,
            Intermediates := rest }) ∧
      verifyLegacyCertificate [] pinned =
        Except.ok (some (Error.errorsNew "no certificate to verify")) := by
  refine ⟨rfl, ?_, rfl⟩
  simp only [verifyServerCerts, index_cons, addIntermediates]
  simp [addIntermediates_rest]

/-- C3 as stated, without the condition on the caller's skip-verify flag, is false: with
skip-verify set in the caller's settings the dial returns the connection although chain
verification of the leaf fails. -/
theorem dial_chain_verification_counterexample :
    ¬ ∀ (env : Env) (heap : Heap) (dialer : Dialer) (network addr : GoString)
        (config : CustomTLSConfig) (hostname : GoString) (leaf : Certificate)
        (rest : List Certificate),
        ValidConfig heap config →
        config.sendServerName = false →
        config.verifyLegacyCertificate = none →
        env.dial network (dialAddress config addr) = none →
        hostnameOf addr = Except.ok hostname →
        (establishment env heap dialer addr config hostname).1 = none →
        env.peerCertificates = leaf :: rest →
        (env.verify leaf
            { Roots := (callerSettings heap config).RootCAs, CurrentTime := env.verifyTime,
              DNSName := deriveServerName (callerSettings heap config) hostname,
              Intermediates := rest } = none →
          ∃ conn, (CustomTLSDialWithDialer env heap dialer network addr config).result =
            Except.ok (some conn, none)) ∧
        (∀ err, env.verify leaf
            { Roots := (callerSettings heap config).RootCAs, CurrentTime := env.verifyTime,
              DNSName := deriveServerName (callerSettings heap config) hostname,
              Intermediates := rest } = some err →
          (CustomTLSDialWithDialer env heap dialer network addr config).result =
            Except.ok (none, some err)) := by
  intro h
  have h2 := (h rejectingEnv skipVerifyHeap {} tcp target chainConfig (ascii "example.com")
    leafCert [] (valid_skipVerifyHeap chainConfig rfl) rfl rfl rfl (by decide) (by decide)
    rfl).2 (Error.external 7) rfl
  exact absurd h2 (by decide)

/-- C3 at concrete inputs: on settings without skip-verify, a server whose chain verifies
gets a connection and a server whose chain is rejected gets the verifier's error. -/
theorem dial_chain_verification_witness :
    (CustomTLSDialWithDialer (okEnv [leafCert, otherCert]) plainHeap {} tcp target
        chainConfig).result = Except.ok (some { config := 1 }, none) ∧
      (CustomTLSDialWithDialer rejectingEnv plainHeap {} tcp target chainConfig).result =
        Except.ok (none, some (Error.external 7)) :=
  ⟨(dial_chain_verification (okEnv [leafCert, otherCert]) plainHeap {} tcp target chainConfig
      (ascii "example.com") leafCert [otherCert] (valid_plainHeap chainConfig rfl) rfl rfl
      rfl rfl (by decide) (by decide) rfl).1 rfl,
    (dial_chain_verification rejectingEnv plainHeap {} tcp target chainConfig
      (ascii "example.com") leafCert [] (valid_plainHeap chainConfig rfl) rfl rfl
      rfl rfl (by decide) (by decide) rfl).2 (Error.external 7) rfl⟩

/-- C2 at concrete inputs: a dial that pins `leafCert` against a server presenting it
returns a connection, so its establishment step and its legacy verifier returned no
error, and exactly that one verifier ran. -/
theorem dial_verifier_selection_witness :
    ValidConfig plainHeap legacyConfig ∧
      (establishment (okEnv [leafCert]) plainHeap {} target legacyConfig
        (ascii "example.com")).1 = none ∧
      verifyLegacyCertificate [leafCert] leafCert = Except.ok none ∧
      verifierRuns (CustomTLSDialWithDialer (okEnv [leafCert]) plainHeap {} tcp target
        legacyConfig).events = [Event.verifyLegacy (Except.ok none)] := by
  have hv := valid_plainHeap legacyConfig rfl
  have h := dial_verifier_selection (okEnv [leafCert]) plainHeap {} tcp target legacyConfig hv
  obtain ⟨-, hostname, hh, he, hr⟩ := h.1 { config := 1 } none (by decide)
  have hhost : hostname = ascii "example.com" := by
    have h2 : hostnameOf target = Except.ok (ascii "example.com") := by decide
    rw [h2] at hh
    cases hh
    rfl
  subst hhost
  exact ⟨hv, he, hr, by decide⟩

/-- C4 at concrete inputs: a dial that pins `otherCert` against a server presenting
`leafCert` returns `unexpected certificate` with no connection, and its last action is
the close of the transport. -/
theorem dial_error_closes_transport_witness :
    (CustomTLSDialWithDialer (okEnv [leafCert]) plainHeap {} tcp target
        mismatchConfig).result =
        Except.ok (none, some (Error.errorsNew "unexpected certificate")) ∧
      (CustomTLSDialWithDialer (okEnv [leafCert]) plainHeap {} tcp target
        mismatchConfig).events.getLast? = some Event.close :=
  ⟨by decide,
    ((dial_error_closes_transport (okEnv [leafCert]) plainHeap {} tcp target mismatchConfig
      rfl).1 none (Error.errorsNew "unexpected certificate") (by decide)).2.1⟩

/-- C5 at concrete inputs: a proxy that answers `HTTP/1.1 407` makes the establishment
step fail without a handshake and the dial return an error. -/
theorem proxy_reply_gates_handshake_witness :
    proxyConfig.httpProxyAddress ≠ [] ∧
      (∃ err, (establishConnection deniedEnv proxyConfig target (ascii "example.com")
        {}).1 = some err) ∧
      (∃ err, (CustomTLSDialWithDialer deniedEnv plainHeap {} tcp target
        proxyConfig).result = Except.ok (none, some err)) :=
  ⟨by decide,
    ((proxy_reply_gates_handshake deniedEnv plainHeap {} tcp target proxyConfig
      (ascii "example.com") {} (by decide)).2.1 (by decide)).1,
    ((proxy_reply_gates_handshake deniedEnv plainHeap {} tcp target proxyConfig
      (ascii "example.com") {} (by decide)).2.2 (by decide)).1⟩

end Psiphon
